import Mathlib

/- Verification of the graph-execution core of the Volteyr internal bot backend.
   The definitions below are shallow embeddings of the Python source:
   message model and history sanitizer (backend/app/agent/graph.py, function
   _sanitize_messages_for_llm), router (should_continue), tool nodes
   (run_tools, run_tools_email), tool dispatcher (_run_tool), the resume
   endpoint (backend/app/api/routers/chat.py, chat_resume), the Airtable
   self-correcting subgraph (backend/app/agent/subgraphs/airtable.py) and the
   Airtable search tool (backend/app/tools/airtable.py).
   External collaborators (the LLM, the Airtable HTTP API, the email backend)
   are modelled as explicit function parameters, as the spec scopes them out. -/

namespace VolteyrBot

/- One tool call carried by an assistant message: id, name, and an opaque
   arguments blob. A Python value of None for id or name is modelled by the
   empty string, matching the truthiness tests in the source
   (for example: if tc.get(\x22id\x22)). -/
structure ToolCall where
  id : String
  name : String
  args : String
deriving DecidableEq, Repr

/- LangChain message taxonomy as used by the graph: HumanMessage, AIMessage
   (with tool_calls), ToolMessage (with tool_call_id), SystemMessage. -/
inductive Msg where
  | human (content : String)
  | assistant (content : String) (tool_calls : List ToolCall)
  | tool (content : String) (tool_call_id : String)
  | system (content : String)
deriving DecidableEq, Repr

/- isinstance(msg, ToolMessage) -/
def isToolMsg : Msg → Bool
  | .tool _ _ => true
  | _ => false

/- Python substring test: needle in hay. -/
def containsSub (hay needle : String) : Bool :=
  hay.toList.tails.any (fun t => needle.toList.isPrefixOf t)

/- ASCII lower case of one character; the Python str.lower of the source is
   applied to ASCII marker and table names only. -/
def lowerChar (c : Char) : Char :=
  if 65 ≤ c.toNat ∧ c.toNat ≤ 90 then Char.ofNat (c.toNat + 32) else c

/- ASCII str.lower. -/
def lowerStr (s : String) : String :=
  ⟨s.toList.map lowerChar⟩

/- Python str.strip whitespace test. -/
def isWs (c : Char) : Bool :=
  c == ' ' || c == '\t' || c == '\n' || c == '\r' || c == '\x0b' || c == '\x0c'

/- Python str.strip: remove surrounding whitespace. -/
def trimStr (s : String) : String :=
  ⟨((s.toList.dropWhile isWs).reverse.dropWhile isWs).reverse⟩

/- The error heuristic used by the subgraph wrapper and router code:
   (\x22Error\x22 in content) or (\x22error\x22 in content.lower()). -/
def isErrorObservation (content : String) : Bool :=
  containsSub content "Error" || containsSub (lowerStr content) "error"

/- graph.py, _TOOL_INTERRUPTED_PLACEHOLDER -/
def _TOOL_INTERRUPTED_PLACEHOLDER : String :=
  "Error: the previous action was interrupted. Please try again or rephrase your request."

/- The set comprehension in graph.py line 50:
   ids_expected = the tool-call ids of the message, dropping falsy ids.
   Python builds a set; we keep a first-occurrence-ordered deduplicated list,
   which is a deterministic refinement (the claims do not depend on set order). -/
def expectedIds (tcs : List ToolCall) : List String :=
  ((tcs.map (fun tc => tc.id)).filter (fun i => i != "")).dedup

/- The ids recorded in ids_seen by the scan over the block of consecutive
   ToolMessages (graph.py lines 53-62): a tool_call_id is recorded exactly
   when it occurs in ids_expected. -/
def seenIds (expected : List String) (block : List Msg) : List String :=
  block.filterMap (fun m =>
    match m with
    | .tool _ tid => if expected.contains tid then some tid else none
    | _ => none)

/- graph.py, _sanitize_messages_for_llm: ensure every assistant message with
   tool_calls is followed by ToolMessages covering all its call ids, injecting
   placeholder ToolMessages for the missing ids. The while loop over the
   input with the inner scan over consecutive ToolMessages is rendered as
   structural recursion: the inner scan is takeWhile and dropWhile on
   isToolMsg, and the outer loop resumes at index j = after the block. -/
def _sanitize_messages_for_llm : List Msg → List Msg
  | [] => []
  | .assistant c tcs :: rest =>
    if tcs.isEmpty then
      .assistant c tcs :: _sanitize_messages_for_llm rest
    else
      let block := rest.takeWhile isToolMsg
      let rest' := rest.dropWhile isToolMsg
      let expected := expectedIds tcs
      let seen := seenIds expected block
      let missing := expected.filter (fun x => ¬ seen.contains x)
      .assistant c tcs :: (block ++ missing.map (fun tid => Msg.tool _TOOL_INTERRUPTED_PLACEHOLDER tid)
        ++ _sanitize_messages_for_llm rest')
  | m :: rest => m :: _sanitize_messages_for_llm rest
termination_by msgs => msgs.length
decreasing_by
  · simp only [List.length_cons]
    omega
  · simp only [List.length_cons]
    exact Nat.lt_succ_of_le (List.dropWhile_sublist _).length_le
  · simp only [List.length_cons]
    omega

/- graph.py line 257 -/
def MAX_TOOL_MESSAGES : Nat := 10

/- graph.py, should_continue: the router. Returns none when the message list
   is empty (the Python code would raise an IndexError on messages[-1]);
   otherwise some of the branch label string. -/
def should_continue (msgs : List Msg) : Option String :=
  match msgs.getLast? with
  | none => none
  | some last =>
    match last with
    | .assistant _ tcs =>
      if tcs.isEmpty then some "end"
      else if MAX_TOOL_MESSAGES ≤ (msgs.filter isToolMsg).length then some "end"
      else
        let names := (tcs.map (fun tc => tc.name)).filter (fun n => n != "")
        if names.contains "send_email" then some "tools_email"
        else if ¬ names.isEmpty ∧ names.all (fun n => n == "search_airtable") then some "airtable"
        else some "tools"
    | _ => some "end"

/- The three concrete capabilities the dispatcher knows, as external
   collaborators: each invocation either returns a string result (Except.ok)
   or raises an exception whose text is the Except.error payload. -/
structure ToolImpls where
  lookup_policy : String → Except String String
  send_email : String → Except String String
  search_subgraph : String → Except String String

/- Body of graph.py _run_tool before the except clause. -/
def runToolBody (impls : ToolImpls) (name args : String) : Except String String :=
  if name = "lookup_policy" then impls.lookup_policy args
  else if name = "send_email" then impls.send_email args
  else if name = "search_airtable" then impls.search_subgraph args
  else .ok ("Unknown tool: " ++ name)

/- graph.py, _run_tool: the dispatcher. The try and except wrapper converts a
   raised exception e into the string Error running {name}: {e}. -/
def _run_tool (impls : ToolImpls) (name args : String) : String :=
  match runToolBody impls name args with
  | .ok s => s
  | .error e => "Error running " ++ name ++ ": " ++ e

/- graph.py, run_tools: for each tool call of the last message, append one
   ToolMessage whose content is the dispatch outcome; a raised exception is
   caught and rendered as Error executing tool: {e}. The dispatch outcome for
   one call is abstracted as exec (it mixes _run_tool and the Airtable
   subgraph invocation, both external interactions). -/
def run_tools (exec : String → String → Except String String) (last : Msg) : List Msg :=
  match last with
  | .assistant _ tcs =>
    tcs.map (fun tc =>
      Msg.tool
        (match exec tc.name tc.args with
          | .ok s => s
          | .error e => "Error executing tool: " ++ e)
        tc.id)
  | _ => []

/- graph.py, run_tools_email: runs only send_email calls through _run_tool;
   every other call in the batch is answered with Skipped (not email). -/
def run_tools_email (impls : ToolImpls) (last : Msg) : List Msg :=
  match last with
  | .assistant _ tcs =>
    tcs.map (fun tc =>
      Msg.tool
        (if tc.name = "send_email" then _run_tool impls "send_email" tc.args
         else "Skipped (not email): " ++ tc.name)
        tc.id)
  | _ => []

/- chat.py, chat_resume, combined with the graph compilation in graph.py
   (interrupt_before tools_email and the edge tools_email to agent): the
   endpoint rejects actions other than approve and reject with a 400 error;
   otherwise it resumes the paused graph with Command(resume=action). No node
   of the graph calls interrupt(), so the resume payload is never consumed:
   resuming executes the pending tools_email node on the paused state and
   then follows the static edge to the agent node, for both action values.
   The result is the list of appended ToolMessages and the next node label. -/
def chat_resume_step (impls : ToolImpls) (action : String) (pausedMessages : List Msg) :
    Except String (List Msg × String) :=
  if action ≠ "approve" ∧ action ≠ "reject" then
    .error "action must be \x27approve\x27 or \x27reject\x27"
  else
    match pausedMessages.getLast? with
    | none => .error "IndexError"
    | some last => .ok (run_tools_email impls last, "agent")

/- Airtable self-correcting subgraph (backend/app/agent/subgraphs/airtable.py). -/

/- airtable.py line 26 -/
def AIRTABLE_MAX_RETRIES : Nat := 3

/- AirtableSubgraphState: messages (append reducer) plus retry counter
   (plain value, last write wins). -/
structure SubState where
  messages : List Msg
  retries_used : Nat
deriving DecidableEq, Repr

/- The node currently about to run in the subgraph; done stands for END. -/
inductive SubNode where
  | agent
  | tools
  | done
deriving DecidableEq, Repr

/- External collaborators of the subgraph: the LLM (invoked on the system
   prompt plus the message history; the constant prompt prefix is absorbed
   into the collaborator) and the search_airtable tool invoked by ToolNode
   for one tool call (the tool never raises, see app/tools/airtable.py). -/
structure SubEnv where
  llm : List Msg → Msg
  tool : ToolCall → String

/- airtable.py, agent_node: append the LLM response. -/
def agent_node (env : SubEnv) (st : SubState) : SubState :=
  { messages := st.messages ++ [env.llm st.messages], retries_used := st.retries_used }

/- airtable.py, _tools_condition: route after the agent node. -/
def _tools_condition (st : SubState) : SubNode :=
  match st.messages.getLast? with
  | some (.assistant _ tcs) => if tcs.isEmpty then .done else .tools
  | _ => .done

/- The tool calls of the last message, as dispatched by ToolNode. -/
def lastToolCalls (st : SubState) : List ToolCall :=
  match st.messages.getLast? with
  | some (.assistant _ tcs) => tcs
  | _ => []

/- The ToolMessages produced by ToolNode for the pending calls. -/
def toolResults (env : SubEnv) (st : SubState) : List Msg :=
  (lastToolCalls st).map (fun tc => Msg.tool (env.tool tc) tc.id)

/- tool_node_wrapper, last_content: the content of the last ToolMessage of
   the ToolNode output, or the empty string when there is none. -/
def toolLastContent (env : SubEnv) (st : SubState) : String :=
  match (toolResults env st).getLast? with
  | some (.tool c _) => c
  | _ => ""

/- airtable.py, tool_node_wrapper: run ToolNode, then increment retries_used
   exactly when the last observation matchedRows the error heuristic. -/
def tool_node_wrapper (env : SubEnv) (st : SubState) : SubState :=
  let is_error := isErrorObservation (toolLastContent env st)
  { messages := st.messages ++ toolResults env st,
    retries_used := if is_error then st.retries_used + 1 else st.retries_used }

/- airtable.py, after_tool_route: loop back to the agent only when the last
   message is a ToolMessage matching the error heuristic and
   retries_used < AIRTABLE_MAX_RETRIES. -/
def after_tool_route (st : SubState) : SubNode :=
  match st.messages.getLast? with
  | some (.tool c _) =>
    if isErrorObservation c ∧ st.retries_used < AIRTABLE_MAX_RETRIES then .agent else .done
  | _ => .done

/- One step of the subgraph: execute the pending node, apply its state delta,
   route to the next node. Also reports how many LLM reasoning invocations
   and how many tool invocations the step performed. -/
def subStep (env : SubEnv) : SubNode → SubState → SubNode × SubState × Nat × Nat
  | .agent, st =>
    let st' := agent_node env st
    (_tools_condition st', st', 1, 0)
  | .tools, st =>
    let st' := tool_node_wrapper env st
    (after_tool_route st', st', 0, (lastToolCalls st).length)
  | .done, st => (.done, st, 0, 0)

/- Run the subgraph for at most fuel steps, accumulating the reasoning and
   tool invocation counts. The compiled graph loops agent / tools until a
   route returns END; fuel makes the recursion explicit and any fuel large
   enough to reach the done node gives the genuine terminal behaviour. -/
def subRun (env : SubEnv) : Nat → SubNode × SubState × Nat × Nat → SubNode × SubState × Nat × Nat
  | 0, acc => acc
  | fuel + 1, (node, st, a, t) =>
    match node with
    | .done => (.done, st, a, t)
    | _ =>
      let s := subStep env node st
      subRun env fuel (s.1, s.2.1, a + s.2.2.1, t + s.2.2.2)

/- graph.py, _run_airtable_subgraph_sync, initial_state: the subgraph is
   entered with one human message and retries_used = 0, at the agent node
   (edge START to agent). -/
def subEntry (q : String) : SubState :=
  { messages := [Msg.human q], retries_used := 0 }

/- Airtable search tool (backend/app/tools/airtable.py). -/

/- Environment-derived configuration (app/core/config.py): AIRTABLE_API_KEY,
   AIRTABLE_BASE_ID, AIRTABLE_TABLE_NAMES. -/
structure AirtableConfig where
  apiKey : String
  baseId : String
  tableNames : List String
deriving DecidableEq, Repr

/- airtable.py, _get_valid_table_names. -/
def _get_valid_table_names (cfg : AirtableConfig) : List String :=
  cfg.tableNames

/- airtable.py, _normalize_table_name: exact match first, then a match up to
   surrounding whitespace and letter case; the Python str.lower is modelled
   by the ASCII String.toLower (all configured names are ASCII). -/
def _normalize_table_name (cfg : AirtableConfig) (value : String) : Option String :=
  let valid := _get_valid_table_names cfg
  if valid.isEmpty then (if value == "" then none else some value)
  else if valid.contains value then some value
  else
    let vLower := lowerStr (trimStr value)
    valid.find? (fun name => lowerStr name == vLower)

/- airtable.py, _is_list_all_intent. -/
def _is_list_all_intent (query : String) : Bool :=
  let q := lowerStr (trimStr query)
  q == "" || ["*", "all", "tous", "toutes", "liste", "list"].contains q

/- airtable.py, _build_sort_param. -/
def _build_sort_param (sort_by : Option String) (sort_direction : Option String) : Option (List String) :=
  match sort_by with
  | none => none
  | some sb =>
    if trimStr sb == "" then none
    else
      let direction := lowerStr (trimStr (sort_direction.getD ""))
      let pre := if direction == "desc" then "-" else ""
      some [pre ++ trimStr sb]

/- One Airtable record, modelled by its fields map as an ordered association
   list from field name to the stringified field value. -/
abbrev Fields := List (String × String)

/- airtable.py, _records_to_markdown_table, cell_text. -/
def cell_text (val : String) : String :=
  let s := (((trimStr val).replace "|" "\\|").replace "\n" " ").replace "\r" ""
  (s.take 80) ++ (if 80 < s.length then "…" else "")

/- The key-collection loop of _records_to_markdown_table: all field names in
   first-occurrence order, skipping empty names. -/
def collectKeys (rows : List Fields) : List String :=
  rows.foldl
    (fun acc row =>
      row.foldl
        (fun acc2 kv => if kv.1 ≠ "" ∧ ¬ acc2.contains kv.1 then acc2 ++ [kv.1] else acc2)
        acc)
    []

/- airtable.py, _records_to_markdown_table with max_columns = 8. -/
def _records_to_markdown_table (rows : List Fields) : String :=
  if rows.isEmpty then ""
  else
    let columns := (collectKeys rows).take 8
    if columns.isEmpty then ""
    else
      let header := "| " ++ String.intercalate " | " columns ++ " |"
      let sep := "| " ++ String.intercalate " | " (columns.map (fun _ => ":---")) ++ " |"
      let body := rows.map (fun row =>
        "| " ++ String.intercalate " | "
          (columns.map (fun c =>
            match row.find? (fun kv => kv.1 == c) with
            | some kv => cell_text kv.2
            | none => ""))
          ++ " |")
      String.intercalate "\n" (header :: sep :: body)

/- The arguments of one records request to the external Airtable API:
   optional filterByFormula, max_records, optional sort. -/
structure AirtableQueryArgs where
  formula : Option String
  maxRecords : Int
  sort : Option (List String)
deriving DecidableEq, Repr

/- The external Airtable collaborators used by _search_airtable_impl:
   connect is the Api and api.table constructor pair (its try block),
   tableAll is table.all (Except.error models a raised exception, records are
   modelled by their fields maps), primaryField and fieldNames are the
   schema helpers get_primary_field_name and get_table_field_names of
   app/tools/utils.py (network-backed), and resolveLinks is
   _resolve_link_fields (replaces linked record ids with display values by
   fetching linked records). -/
structure AirtableService where
  connect : String → Except String Unit
  tableAll : String → AirtableQueryArgs → Except String (List Fields)
  primaryField : String → Option String
  fieldNames : String → List String
  resolveLinks : String → List Fields → List Fields

/- Python repr of a list of strings, used by the f-string hints. -/
def pyListRepr (xs : List String) : String :=
  "[" ++ String.intercalate ", " (xs.map (fun s => "\x27" ++ s ++ "\x27")) ++ "]"

/- airtable.py, _search_airtable_impl: configuration check, table-name
   validation, then the list / full-scan / formula-search branches against
   the external service. max_records is an Option Int (Optional[int]). -/
def _search_airtable_impl (cfg : AirtableConfig) (svc : AirtableService)
    (query table_name : String) (sort_by : Option String)
    (sort_direction : Option String) (max_records : Option Int) : String :=
  if cfg.apiKey == "" || cfg.baseId == "" then
    "Error: Airtable is not configured (missing AIRTABLE_API_KEY or AIRTABLE_BASE_ID)."
  else
    let resolved := _normalize_table_name cfg table_name
    let valid := _get_valid_table_names cfg
    if resolved.isNone ∧ ¬ valid.isEmpty then
      "Error: table_name must be one of: " ++ String.intercalate ", " valid ++ "."
    else
      let table_name := resolved.getD table_name
      match svc.connect table_name with
      | .error e => "Error connecting to Airtable: " ++ e
      | .ok _ =>
        let sd := sort_direction.getD ""
        let sort_param := _build_sort_param sort_by (some (if sd == "" then "asc" else sd))
        let limit : Option Int :=
          match max_records with
          | some n => if 0 < n then some n else none
          | none => none
        if _is_list_all_intent query then
          match svc.tableAll table_name ⟨none, limit.getD 100, sort_param⟩ with
          | .ok records =>
            if records.isEmpty then
              "No records in table \x27" ++ table_name ++ "\x27 (base is empty for this table)."
            else
              _records_to_markdown_table (svc.resolveLinks table_name records)
          | .error e =>
            let fields_hint := svc.fieldNames table_name
            let hint :=
              if ¬ fields_hint.isEmpty then
                " Available fields for table \x27" ++ table_name ++ "\x27: " ++ pyListRepr fields_hint ++ "."
              else ""
            "Error listing table: " ++ e ++ "." ++ hint
        else
          match svc.primaryField table_name with
          | none =>
            match svc.tableAll table_name ⟨none, limit.getD 50, sort_param⟩ with
            | .ok records =>
              let query_lower := lowerStr (trimStr query)
              let matchedRows := records.filter
                (fun fields => fields.any (fun kv => kv.2 != "" && containsSub (lowerStr kv.2) query_lower))
              if matchedRows.isEmpty then
                "No records matching \x27" ++ query ++ "\x27 in table \x27" ++ table_name ++ "\x27."
              else
                _records_to_markdown_table
                  (svc.resolveLinks table_name (matchedRows.take (limit.getD 10).toNat))
            | .error e =>
              let fields_hint := svc.fieldNames table_name
              let hint :=
                if ¬ fields_hint.isEmpty then " Available fields: " ++ pyListRepr fields_hint ++ "."
                else ""
              "Error searching table: " ++ e ++ "." ++ hint
          | some primary_field =>
            let safe_query := (trimStr query).replace "\x27" "\\\x27"
            let formula :=
              "SEARCH(LOWER(\x27" ++ safe_query ++ "\x27), LOWER(\x7b" ++ primary_field ++ "\x7d))"
            match svc.tableAll table_name ⟨some formula, limit.getD 20, sort_param⟩ with
            | .error e =>
              let fields_hint := svc.fieldNames table_name
              let hint :=
                if ¬ fields_hint.isEmpty then
                  " Available fields for table \x27" ++ table_name ++ "\x27: " ++ pyListRepr fields_hint ++ "."
                else ""
              "Error running search: " ++ e ++ "." ++ hint
            | .ok records =>
              if records.isEmpty then
                "No records matching \x27" ++ query ++ "\x27 in table \x27" ++ table_name ++ "\x27."
              else
                _records_to_markdown_table
                  (svc.resolveLinks table_name (records.take (limit.getD 10).toNat))

/- airtable.py, search_airtable: the tool wrapper. Its try and except clause
   converts a raised exception into Error: {e}; the implementation above is
   total, so the wrapper reduces to the implementation. -/
def search_airtable (cfg : AirtableConfig) (svc : AirtableService)
    (query table_name : String) (sort_by : Option String)
    (sort_direction : Option String) (max_records : Option Int) : String :=
  _search_airtable_impl cfg svc query table_name sort_by sort_direction max_records

/- Auxiliary observations used by the theorem statements. -/

/- The tool_call_id of a message (empty for non tool messages). -/
def msgToolCallId : Msg → String
  | .tool _ i => i
  | _ => ""

/- Boolean string prefix test over the character lists. -/
def startsWithStr (s pre : String) : Bool :=
  pre.toList.isPrefixOf s.toList

/- Number of tool_result messages answering the given call id. -/
def toolAnswerCount (tid : String) (msgs : List Msg) : Nat :=
  (msgs.filter (fun m => match m with | .tool _ i => i == tid | _ => false)).length

/- Concrete collaborators for witnesses and counterexamples: every capability
   succeeds; send_email reports a genuine delivery. -/
def noopImpls : ToolImpls :=
  ⟨fun _ => .ok "policy text",
   fun _ => .ok "Email sent successfully to alice@example.com",
   fun _ => .ok "| Nom |"⟩

/- Concrete collaborators whose every capability raises. -/
def failingImpls : ToolImpls :=
  ⟨fun _ => .error "policy backend down",
   fun _ => .error "SMTP down",
   fun _ => .error "network unreachable"⟩

/- A thread paused before the gated tools_email node: the last checkpointed
   message is an assistant message with one pending send_email call. -/
def pausedEmailThread : List Msg :=
  [Msg.human "send the report to alice",
   Msg.assistant "" [⟨"call1", "send_email", "recipient alice"⟩]]

/- A last message mixing a named search call with an unnamed call. -/
def mixedNamesThread : List Msg :=
  [Msg.assistant "" [⟨"1", "search_airtable", "q"⟩, ⟨"2", "", ""⟩]]

/- A history where one call id already has two answers. -/
def dupAnswerHistory : List Msg :=
  [Msg.assistant "" [⟨"a", "search_airtable", "q"⟩],
   Msg.tool "row one" "a", Msg.tool "row two" "a"]

/- A tool_result message that is the sanitizer placeholder. -/
def isPlaceholderMsg : Msg → Bool
  | .tool c _ => c == _TOOL_INTERRUPTED_PLACEHOLDER
  | _ => false

/- Completeness predicate over a history: every assistant message with tool
   calls is answered, inside the block of consecutive ToolMessages that
   immediately follows it, for each of its expected call ids. -/
def wellAnswered : List Msg → Bool
  | [] => true
  | .assistant _ tcs :: rest =>
    if tcs.isEmpty then wellAnswered rest
    else
      ((expectedIds tcs).all
          (fun x => (seenIds (expectedIds tcs) (rest.takeWhile isToolMsg)).contains x))
        && wellAnswered (rest.dropWhile isToolMsg)
  | _ :: rest => wellAnswered rest
termination_by msgs => msgs.length
decreasing_by
  · simp only [List.length_cons]
    omega
  · simp only [List.length_cons]
    exact Nat.lt_succ_of_le (List.dropWhile_sublist _).length_le
  · simp only [List.length_cons]
    omega

/- A subgraph environment whose reasoning step always emits exactly one
   search call and whose capability always reports an error observation. -/
def alwaysErrorEnv : SubEnv :=
  ⟨fun _ => Msg.assistant "" [⟨"1", "search_airtable", "q"⟩],
   fun _ => "Error: field not found"⟩

/- A concrete external Airtable service (never consulted by the validation
   branch under study). -/
def demoSvc : AirtableService :=
  ⟨fun _ => .ok (), fun _ _ => .ok [], fun _ => none, fun _ => [], fun _ r => r⟩

/- Tables configured but credentials missing. -/
def noKeyConfig : AirtableConfig :=
  ⟨"", "base123", ["Client", "Projet"]⟩

/- Credentials and tables configured. -/
def demoConfig : AirtableConfig :=
  ⟨"key123", "base123", ["Client", "Projet"]⟩

theorem startsWithStr_append (pre s t : String) (h : startsWithStr s pre = true) :
    startsWithStr (s ++ t) pre = true := by
  simp only [startsWithStr, List.isPrefixOf_iff_prefix] at h ⊢
  have hsplit : (s ++ t).toList = s.toList ++ t.toList := rfl
  rw [hsplit]
  exact h.trans (List.prefix_append _ _)

/-- C8: fan-out ordering. For every assistant message carrying a list of tool
calls and every dispatch outcome function, run_tools appends exactly one
tool_result per call, and the sequence of appended tool_call_ids equals the
sequence of ids of the originating tool_calls list, in order. -/
theorem run_tools_fanout_order (exec : String → String → Except String String)
    (c : String) (tcs : List ToolCall) :
    (run_tools exec (Msg.assistant c tcs)).length = tcs.length ∧
    (run_tools exec (Msg.assistant c tcs)).map msgToolCallId = tcs.map (fun tc => tc.id) := by
  refine ⟨?_, ?_⟩ <;>
    simp [run_tools, msgToolCallId, List.map_map, Function.comp]

/-- C6: rate limit. For every state whose message list contains at least
MAX_TOOL_MESSAGES = 10 tool_result messages, the router returns end,
regardless of whether the last assistant message carries pending tool calls. -/
theorem route_rate_limit_end (msgs : List Msg)
    (h : MAX_TOOL_MESSAGES ≤ (msgs.filter isToolMsg).length) :
    should_continue msgs = some "end" := by
  have hne : msgs ≠ [] := by
    intro he
    subst he
    simp [MAX_TOOL_MESSAGES] at h
  rcases hlast : msgs.getLast? with _ | last
  · rw [List.getLast?_eq_none_iff] at hlast
    exact absurd hlast hne
  · cases last with
    | assistant c tcs =>
      by_cases he : tcs.isEmpty <;> simp [should_continue, hlast, he, h]
    | human c => simp [should_continue, hlast]
    | tool c i => simp [should_continue, hlast]
    | system c => simp [should_continue, hlast]

/-- Witness for C6: a concrete state with ten tool results whose last message
is an assistant message with a pending gated tool call still routes to end. -/
theorem route_rate_limit_end_witness :
    should_continue
      (List.replicate 10 (Msg.tool "r" "i") ++ [Msg.assistant "" [⟨"1", "send_email", ""⟩]]) =
      some "end" :=
  route_rate_limit_end _ (by decide)

/-- C3 counterexample: the dispatcher turns an unknown tool name into the
string Unknown tool: {name}, which does not begin with Error: (and the
exception path begins with Error running, not Error:), refuting the claim
that every internal failure outcome begins with Error:. -/
theorem run_tool_unknown_counterexample :
    _run_tool noopImpls "frobnicate" "" = "Unknown tool: frobnicate" ∧
    startsWithStr "Unknown tool: frobnicate" "Error:" = false ∧
    _run_tool failingImpls "send_email" "x" = "Error running send_email: SMTP down" ∧
    startsWithStr "Error running send_email: SMTP down" "Error:" = false := by
  refine ⟨rfl, by decide, rfl, by decide⟩

/-- C3 (amended): the dispatcher is total by construction and shapes its
failure outcomes as follows: an unknown tool name is answered with the string
Unknown tool: {name}, and a capability that raises exception e is answered
with the string Error running {name}: {e}, which begins with Error (though
not with the exact prefix Error:). -/
theorem run_tool_error_shape_amended (impls : ToolImpls) (name args : String) :
    (name ≠ "lookup_policy" → name ≠ "send_email" → name ≠ "search_airtable" →
      _run_tool impls name args = "Unknown tool: " ++ name) ∧
    (∀ e, runToolBody impls name args = .error e →
      _run_tool impls name args = "Error running " ++ name ++ ": " ++ e ∧
      startsWithStr ("Error running " ++ name ++ ": " ++ e) "Error" = true) := by
  constructor
  · intro h1 h2 h3
    simp [_run_tool, runToolBody, h1, h2, h3]
  · intro e he
    refine ⟨by simp [_run_tool, he], ?_⟩
    have h0 : startsWithStr "Error running " "Error" = true := by decide
    have h1 := startsWithStr_append "Error" "Error running " name h0
    have h2 := startsWithStr_append "Error" ("Error running " ++ name) ": " h1
    exact startsWithStr_append "Error" ("Error running " ++ name ++ ": ") e h2

/-- Witness for the amended C3 theorem at concrete inputs: an unknown name
and a raising send_email capability. -/
theorem run_tool_error_shape_amended_witness :
    _run_tool noopImpls "frobnicate" "x" = "Unknown tool: frobnicate" ∧
    (_run_tool failingImpls "send_email" "x" = "Error running send_email: SMTP down" ∧
     startsWithStr ("Error running " ++ "send_email" ++ ": " ++ "SMTP down") "Error" = true) :=
  ⟨(run_tool_error_shape_amended noopImpls "frobnicate" "x").1
      (by decide) (by decide) (by decide),
   (run_tool_error_shape_amended failingImpls "send_email" "x").2 "SMTP down" rfl⟩

/-- C1: resume semantics at the gated pause point. At a thread paused before
tools_email with one pending send_email call, resuming with decision reject
executes the gated capability anyway: the appended tool_result carries the
genuine delivery report (no content containing skipped is produced), and the
outcome of reject is identical to the outcome of approve, because no node of
the graph consumes the resume payload. This exhibits the code bug refuting
the claimed reject semantics. -/
theorem resume_reject_sends_email_anyway :
    chat_resume_step noopImpls "reject" pausedEmailThread =
      .ok ([Msg.tool "Email sent successfully to alice@example.com" "call1"], "agent") ∧
    chat_resume_step noopImpls "reject" pausedEmailThread =
      chat_resume_step noopImpls "approve" pausedEmailThread ∧
    containsSub (lowerStr "Email sent successfully to alice@example.com") "skipped" = false := by
  refine ⟨rfl, rfl, by decide⟩

/-- C7 counterexample: a batch mixing a search_airtable call with an unnamed
call is routed to the delegate branch although not every requested call names
the self-correcting capability, refuting the only-when clause of the claim. -/
theorem router_gated_counterexample :
    should_continue mixedNamesThread = some "airtable" ∧
    should_continue mixedNamesThread ≠ some "tools" ∧
    ([ToolCall.mk "1" "search_airtable" "q", ToolCall.mk "2" "" ""].all
        (fun tc => tc.name == "search_airtable")) = false := by
  refine ⟨by decide, by decide, by decide⟩

/-- C4 counterexample: on a history where one call id already has two
tool_result answers, the sanitizer returns the history unchanged, so that
call id has two matching tool_result messages, refuting exactly-one. -/
theorem sanitize_duplicate_counterexample :
    _sanitize_messages_for_llm dupAnswerHistory = dupAnswerHistory ∧
    toolAnswerCount "a" (_sanitize_messages_for_llm dupAnswerHistory) = 2 := by
  have h : _sanitize_messages_for_llm dupAnswerHistory = dupAnswerHistory := by
    simp [dupAnswerHistory, _sanitize_messages_for_llm, expectedIds, seenIds, isToolMsg]
  refine ⟨h, ?_⟩
  rw [h]
  decide

/- Evaluation of the router on a last assistant message with calls, below the
rate limit: gated precedence, then the all-search test on nonempty names. -/
theorem should_continue_eval (pre : List Msg) (c : String) (tcs : List ToolCall)
    (hne : tcs ≠ [])
    (hrate : ((pre ++ [Msg.assistant c tcs]).filter isToolMsg).length < MAX_TOOL_MESSAGES) :
    should_continue (pre ++ [Msg.assistant c tcs]) =
      if ∃ tc ∈ tcs, tc.name = "send_email" then some "tools_email"
      else if (∃ tc ∈ tcs, ¬ tc.name = "") ∧ (∀ tc ∈ tcs, tc.name = "" ∨ tc.name = "search_airtable")
      then some "airtable"
      else some "tools" := by
  have hlast : (pre ++ [Msg.assistant c tcs]).getLast? = some (Msg.assistant c tcs) := by
    rw [List.getLast?_append_cons]
    rfl
  have hemp : tcs.isEmpty = false := by
    simp [List.isEmpty_iff, hne]
  have hnotle : ¬ MAX_TOOL_MESSAGES ≤ ((pre ++ [Msg.assistant c tcs]).filter isToolMsg).length :=
    Nat.not_le.mpr hrate
  simp only [should_continue, hlast]
  rw [if_neg (by simp [hemp]), if_neg hnotle]
  simp

/-- C7 (amended): router precedence below the rate limit, on a last assistant
message with tool calls. A call whose name is empty is dropped before
classification (the names list comprehension of should_continue). Any call
naming send_email routes to tools_email, even in a mixed batch. With no
send_email call, the delegate branch is taken exactly when some call carries
a nonempty name and every nonempty-named call names search_airtable;
otherwise the generic tools branch is taken. -/
theorem router_gated_precedence_amended (pre : List Msg) (c : String) (tcs : List ToolCall)
    (hne : tcs ≠ [])
    (hrate : ((pre ++ [Msg.assistant c tcs]).filter isToolMsg).length < MAX_TOOL_MESSAGES) :
    ((∃ tc ∈ tcs, tc.name = "send_email") →
      should_continue (pre ++ [Msg.assistant c tcs]) = some "tools_email") ∧
    ((¬ ∃ tc ∈ tcs, tc.name = "send_email") →
      (should_continue (pre ++ [Msg.assistant c tcs]) = some "airtable" ↔
        ((∃ tc ∈ tcs, ¬ tc.name = "") ∧
          ∀ tc ∈ tcs, tc.name = "" ∨ tc.name = "search_airtable"))) ∧
    ((¬ ∃ tc ∈ tcs, tc.name = "send_email") →
      (¬ ((∃ tc ∈ tcs, ¬ tc.name = "") ∧
          ∀ tc ∈ tcs, tc.name = "" ∨ tc.name = "search_airtable")) →
      should_continue (pre ++ [Msg.assistant c tcs]) = some "tools") := by
  rw [should_continue_eval pre c tcs hne hrate]
  refine ⟨?_, ?_, ?_⟩
  · intro hex
    rw [if_pos hex]
  · intro hnosend
    rw [if_neg hnosend]
    by_cases hcond : ((∃ tc ∈ tcs, ¬ tc.name = "") ∧
        ∀ tc ∈ tcs, tc.name = "" ∨ tc.name = "search_airtable")
    · rw [if_pos hcond]
      exact ⟨fun _ => hcond, fun _ => rfl⟩
    · rw [if_neg hcond]
      exact ⟨fun h => absurd (Option.some.inj h) (by decide), fun h => absurd h hcond⟩
  · intro hnosend hcond
    rw [if_neg hnosend, if_neg hcond]

/-- Witness for the amended C7 theorem: a mixed batch naming both send_email
and lookup_policy routes to tools_email, and a batch of one named search call
plus one unnamed call routes to the delegate branch. -/
theorem router_gated_precedence_amended_witness :
    should_continue ([] ++ [Msg.assistant "" [⟨"1", "send_email", ""⟩, ⟨"2", "lookup_policy", ""⟩]]) =
      some "tools_email" ∧
    should_continue ([] ++ [Msg.assistant "" [⟨"1", "search_airtable", "q"⟩, ⟨"2", "", ""⟩]]) =
      some "airtable" := by
  constructor
  · exact (router_gated_precedence_amended [] "" _ (by decide) (by decide)).1 (by decide)
  · exact ((router_gated_precedence_amended [] "" _ (by decide) (by decide)).2.1
      (by decide)).mpr (by decide)

/- Rewrite equations of the sanitizer, one per head shape. -/

theorem sanitize_nil : _sanitize_messages_for_llm [] = [] := by
  simp [_sanitize_messages_for_llm]

theorem sanitize_cons_human (c : String) (rest : List Msg) :
    _sanitize_messages_for_llm (.human c :: rest) = .human c :: _sanitize_messages_for_llm rest := by
  simp [_sanitize_messages_for_llm]

theorem sanitize_cons_tool (c i : String) (rest : List Msg) :
    _sanitize_messages_for_llm (.tool c i :: rest) = .tool c i :: _sanitize_messages_for_llm rest := by
  simp [_sanitize_messages_for_llm]

theorem sanitize_cons_system (c : String) (rest : List Msg) :
    _sanitize_messages_for_llm (.system c :: rest) =
      .system c :: _sanitize_messages_for_llm rest := by
  simp [_sanitize_messages_for_llm]

theorem sanitize_cons_assistant_nil (c : String) (rest : List Msg) :
    _sanitize_messages_for_llm (.assistant c [] :: rest) =
      .assistant c [] :: _sanitize_messages_for_llm rest := by
  simp [_sanitize_messages_for_llm]

theorem sanitize_cons_assistant (c : String) (tcs : List ToolCall) (rest : List Msg)
    (h : tcs ≠ []) :
    _sanitize_messages_for_llm (.assistant c tcs :: rest) =
      .assistant c tcs ::
        (rest.takeWhile isToolMsg ++
          ((expectedIds tcs).filter
            (fun x => ¬ (seenIds (expectedIds tcs) (rest.takeWhile isToolMsg)).contains x)).map
            (fun tid => Msg.tool _TOOL_INTERRUPTED_PLACEHOLDER tid) ++
          _sanitize_messages_for_llm (rest.dropWhile isToolMsg)) := by
  have he : tcs.isEmpty = false := by simp [List.isEmpty_iff, h]
  simp [_sanitize_messages_for_llm, he]

theorem sanitize_cons_head (m : Msg) (rest : List Msg) :
    ∃ t, _sanitize_messages_for_llm (m :: rest) = m :: t := by
  cases m with
  | human c => exact ⟨_, sanitize_cons_human c rest⟩
  | tool c i => exact ⟨_, sanitize_cons_tool c i rest⟩
  | system c => exact ⟨_, sanitize_cons_system c rest⟩
  | assistant c tcs =>
    rcases tcs with _ | ⟨tc0, tcs0⟩
    · exact ⟨_, sanitize_cons_assistant_nil c rest⟩
    · exact ⟨_, sanitize_cons_assistant c (tc0 :: tcs0) rest (by simp)⟩

/- Rewrite equations of the completeness predicate, one per head shape. -/

theorem wellAnswered_nil : wellAnswered [] = true := by
  simp [wellAnswered]

theorem wellAnswered_cons_human (c : String) (rest : List Msg) :
    wellAnswered (.human c :: rest) = wellAnswered rest := by
  simp [wellAnswered]

theorem wellAnswered_cons_tool (c i : String) (rest : List Msg) :
    wellAnswered (.tool c i :: rest) = wellAnswered rest := by
  simp [wellAnswered]

theorem wellAnswered_cons_system (c : String) (rest : List Msg) :
    wellAnswered (.system c :: rest) = wellAnswered rest := by
  simp [wellAnswered]

theorem wellAnswered_cons_assistant_nil (c : String) (rest : List Msg) :
    wellAnswered (.assistant c [] :: rest) = wellAnswered rest := by
  simp [wellAnswered]

theorem wellAnswered_cons_assistant (c : String) (tcs : List ToolCall) (rest : List Msg)
    (h : tcs ≠ []) :
    wellAnswered (.assistant c tcs :: rest) =
      (((expectedIds tcs).all
          (fun x => (seenIds (expectedIds tcs) (rest.takeWhile isToolMsg)).contains x))
        && wellAnswered (rest.dropWhile isToolMsg)) := by
  have he : tcs.isEmpty = false := by simp [List.isEmpty_iff, h]
  simp [wellAnswered, he]

/- Structural facts about the block decomposition. -/

theorem takeWhile_append_all {α : Type} (p : α → Bool) (xs ys : List α)
    (h : ∀ x ∈ xs, p x = true) :
    (xs ++ ys).takeWhile p = xs ++ ys.takeWhile p := by
  induction xs with
  | nil => simp
  | cons a xs ih =>
    have ha := h a (List.mem_cons_self a xs)
    simp [List.takeWhile_cons, ha, ih (fun x hx => h x (List.mem_cons_of_mem a hx))]

theorem dropWhile_append_all {α : Type} (p : α → Bool) (xs ys : List α)
    (h : ∀ x ∈ xs, p x = true) :
    (xs ++ ys).dropWhile p = ys.dropWhile p := by
  induction xs with
  | nil => simp
  | cons a xs ih =>
    have ha := h a (List.mem_cons_self a xs)
    simp [List.dropWhile_cons, ha, ih (fun x hx => h x (List.mem_cons_of_mem a hx))]

theorem dropWhile_head_false {α : Type} (p : α → Bool) (l : List α) (a : α) (t : List α)
    (h : l.dropWhile p = a :: t) : p a = false := by
  induction l with
  | nil => simp at h
  | cons b l ih =>
    by_cases hb : p b = true
    · rw [List.dropWhile_cons, if_pos hb] at h
      exact ih h
    · rw [List.dropWhile_cons, if_neg hb] at h
      injection h with h1 h2
      subst h1
      simpa using hb

/- The takeWhile and dropWhile of a sanitized suffix appended after a block of
   tool messages: the sanitizer preserves the head of its input, and the
   suffix starts (when nonempty) with a non tool message. -/
theorem takeWhile_over_sanitized (block phs rest' : List Msg)
    (hb : ∀ x ∈ block, isToolMsg x = true) (hp : ∀ x ∈ phs, isToolMsg x = true)
    (hh : ∀ (a : Msg) (t : List Msg), rest' = a :: t → isToolMsg a = false) :
    ((block ++ (phs ++ _sanitize_messages_for_llm rest')).takeWhile isToolMsg = block ++ phs) ∧
    ((block ++ (phs ++ _sanitize_messages_for_llm rest')).dropWhile isToolMsg =
      _sanitize_messages_for_llm rest') := by
  have hsan : (_sanitize_messages_for_llm rest').takeWhile isToolMsg = [] ∧
      (_sanitize_messages_for_llm rest').dropWhile isToolMsg =
        _sanitize_messages_for_llm rest' := by
    rcases rest' with _ | ⟨m, t⟩
    · rw [sanitize_nil]
      exact ⟨rfl, rfl⟩
    · obtain ⟨t', ht'⟩ := sanitize_cons_head m t
      have hm : isToolMsg m = false := hh m t rfl
      rw [ht']
      constructor
      · rw [List.takeWhile_cons, if_neg (by simp [hm])]
      · rw [List.dropWhile_cons, if_neg (by simp [hm])]
  constructor
  · rw [takeWhile_append_all _ block _ hb, takeWhile_append_all _ phs _ hp, hsan.1,
      List.append_nil]
  · rw [dropWhile_append_all _ block _ hb, dropWhile_append_all _ phs _ hp, hsan.2]

theorem seenIds_append (e : List String) (xs ys : List Msg) :
    seenIds e (xs ++ ys) = seenIds e xs ++ seenIds e ys := by
  unfold seenIds
  exact List.filterMap_append xs ys _

theorem mem_seenIds_placeholder (e : List String) (x : String) (hx : x ∈ e)
    (miss : List String) (hmem : x ∈ miss) :
    x ∈ seenIds e (miss.map (fun tid => Msg.tool _TOOL_INTERRUPTED_PLACEHOLDER tid)) := by
  unfold seenIds
  rw [List.mem_filterMap]
  refine ⟨Msg.tool _TOOL_INTERRUPTED_PLACEHOLDER x, List.mem_map_of_mem _ hmem, ?_⟩
  simp [List.elem_iff, hx]

/- Every expected call id is seen once the synthesized placeholders for the
   ids missing from the block are appended after the block. -/
theorem expected_covered (e : List String) (block : List Msg) (x : String) (hx : x ∈ e) :
    (seenIds e (block ++
        (e.filter (fun y => ¬ (seenIds e block).contains y)).map
          (fun tid => Msg.tool _TOOL_INTERRUPTED_PLACEHOLDER tid))).contains x = true := by
  rw [List.elem_iff, seenIds_append, List.mem_append]
  by_cases hs : (seenIds e block).contains x = true
  · exact Or.inl (List.elem_iff.mp hs)
  · exact Or.inr (mem_seenIds_placeholder e x hx _ (List.mem_filter.mpr ⟨hx, by simpa using hs⟩))

/- Common step for sanitized heads that pass through unchanged. -/
theorem completeness_pass_case (m : Msg) (rest : List Msg)
    (hwa : wellAnswered (m :: _sanitize_messages_for_llm rest) =
      wellAnswered (_sanitize_messages_for_llm rest))
    (ih1 : wellAnswered (_sanitize_messages_for_llm rest) = true)
    (ih2 : ∀ x ∈ _sanitize_messages_for_llm rest, x ∈ rest ∨ isPlaceholderMsg x = true) :
    wellAnswered (m :: _sanitize_messages_for_llm rest) = true ∧
    ∀ x ∈ m :: _sanitize_messages_for_llm rest, x ∈ m :: rest ∨ isPlaceholderMsg x = true := by
  constructor
  · rw [hwa]
    exact ih1
  · intro x hx
    rcases List.mem_cons.mp hx with rfl | hx'
    · exact Or.inl (List.mem_cons_self _ _)
    · rcases ih2 x hx' with h1 | h1
      · exact Or.inl (List.mem_cons_of_mem _ h1)
      · exact Or.inr h1

/-- C4 (amended): sanitizer completeness. For every input history h, in
sanitize(h) every assistant message with tool calls is followed by a block of
consecutive tool_result messages in which each of its nonempty call ids has
at least one matching tool_result (hence one before the next assistant
message); missing answers are synthesized as placeholder tool_result
messages, and every message of the output is either a message of h or such a
synthesized placeholder. Exactly-one fails when h already holds duplicate
answers (see the counterexample), so at-least-one is the amended form. -/
theorem sanitize_completeness_amended (h : List Msg) :
    wellAnswered (_sanitize_messages_for_llm h) = true ∧
    ∀ m ∈ _sanitize_messages_for_llm h, m ∈ h ∨ isPlaceholderMsg m = true := by
  match h with
  | [] =>
    rw [sanitize_nil]
    exact ⟨wellAnswered_nil, by intro m hm; simp at hm⟩
  | .human c :: rest =>
    have ih := sanitize_completeness_amended rest
    rw [sanitize_cons_human]
    exact completeness_pass_case _ rest (wellAnswered_cons_human _ _) ih.1 ih.2
  | .tool c i :: rest =>
    have ih := sanitize_completeness_amended rest
    rw [sanitize_cons_tool]
    exact completeness_pass_case _ rest (wellAnswered_cons_tool _ _ _) ih.1 ih.2
  | .system c :: rest =>
    have ih := sanitize_completeness_amended rest
    rw [sanitize_cons_system]
    exact completeness_pass_case _ rest (wellAnswered_cons_system _ _) ih.1 ih.2
  | .assistant c [] :: rest =>
    have ih := sanitize_completeness_amended rest
    rw [sanitize_cons_assistant_nil]
    exact completeness_pass_case _ rest (wellAnswered_cons_assistant_nil _ _) ih.1 ih.2
  | .assistant c (tc0 :: tcs0) :: rest =>
    have ih := sanitize_completeness_amended (rest.dropWhile isToolMsg)
    have hne : (tc0 :: tcs0 : List ToolCall) ≠ [] := by simp
    rw [sanitize_cons_assistant c _ rest hne]
    have hb : ∀ x ∈ rest.takeWhile isToolMsg, isToolMsg x = true :=
      fun x hx => List.mem_takeWhile_imp hx
    have hp : ∀ x ∈ ((expectedIds (tc0 :: tcs0)).filter
        (fun y => ¬ (seenIds (expectedIds (tc0 :: tcs0))
          (rest.takeWhile isToolMsg)).contains y)).map
        (fun tid => Msg.tool _TOOL_INTERRUPTED_PLACEHOLDER tid), isToolMsg x = true := by
      intro x hx
      rw [List.mem_map] at hx
      obtain ⟨tid, _, rfl⟩ := hx
      rfl
    have hh : ∀ (a : Msg) (t : List Msg), rest.dropWhile isToolMsg = a :: t →
        isToolMsg a = false :=
      fun a t ht => dropWhile_head_false _ _ a t ht
    have hsplit := takeWhile_over_sanitized (rest.takeWhile isToolMsg) _
      (rest.dropWhile isToolMsg) hb hp hh
    rw [← List.append_assoc] at hsplit
    constructor
    · rw [wellAnswered_cons_assistant c _ _ hne, hsplit.1, hsplit.2, Bool.and_eq_true]
      refine ⟨List.all_eq_true.mpr ?_, ih.1⟩
      intro x hx
      exact expected_covered _ _ x hx
    · intro m hm
      rcases List.mem_cons.mp hm with rfl | hm'
      · exact Or.inl (List.mem_cons_self _ _)
      · rcases List.mem_append.mp hm' with hbp | hsan
        · rcases List.mem_append.mp hbp with hbk | hph
          · exact Or.inl (List.mem_cons_of_mem _ ((List.takeWhile_sublist _).mem hbk))
          · rw [List.mem_map] at hph
            obtain ⟨tid, _, rfl⟩ := hph
            exact Or.inr (by simp [isPlaceholderMsg])
        · rcases ih.2 m hsan with h1 | h1
          · exact Or.inl (List.mem_cons_of_mem _ ((List.dropWhile_sublist _).mem h1))
          · exact Or.inr h1
termination_by h.length
decreasing_by
  · simp only [List.length_cons]
    omega
  · simp only [List.length_cons]
    omega
  · simp only [List.length_cons]
    omega
  · simp only [List.length_cons]
    omega
  · simp only [List.length_cons]
    exact Nat.lt_succ_of_le (List.dropWhile_sublist _).length_le

/-- Witness for the amended C4 theorem: a history with an unanswered call id
is completed, and a surviving original message is classified as original. -/
theorem sanitize_completeness_amended_witness :
    wellAnswered (_sanitize_messages_for_llm
      [Msg.assistant "" [⟨"a", "search_airtable", "q"⟩], Msg.human "next"]) = true ∧
    (Msg.human "next" ∈ ([Msg.assistant "" [⟨"a", "search_airtable", "q"⟩], Msg.human "next"] : List Msg) ∨
      isPlaceholderMsg (Msg.human "next") = true) :=
  ⟨(sanitize_completeness_amended
      [Msg.assistant "" [⟨"a", "search_airtable", "q"⟩], Msg.human "next"]).1,
   (sanitize_completeness_amended
      [Msg.assistant "" [⟨"a", "search_airtable", "q"⟩], Msg.human "next"]).2
      (Msg.human "next")
      (by simp [_sanitize_messages_for_llm, expectedIds, seenIds, isToolMsg])⟩

/-- C5: sanitizer idempotence. For every message history h,
sanitize(sanitize(h)) equals sanitize(h). -/
theorem sanitize_idempotent (h : List Msg) :
    _sanitize_messages_for_llm (_sanitize_messages_for_llm h) =
      _sanitize_messages_for_llm h := by
  match h with
  | [] =>
    rw [sanitize_nil, sanitize_nil]
  | .human c :: rest =>
    rw [sanitize_cons_human, sanitize_cons_human, sanitize_idempotent rest]
  | .tool c i :: rest =>
    rw [sanitize_cons_tool, sanitize_cons_tool, sanitize_idempotent rest]
  | .system c :: rest =>
    rw [sanitize_cons_system, sanitize_cons_system, sanitize_idempotent rest]
  | .assistant c [] :: rest =>
    rw [sanitize_cons_assistant_nil, sanitize_cons_assistant_nil, sanitize_idempotent rest]
  | .assistant c (tc0 :: tcs0) :: rest =>
    have hne : (tc0 :: tcs0 : List ToolCall) ≠ [] := by simp
    rw [sanitize_cons_assistant c _ rest hne]
    rw [sanitize_cons_assistant c _ _ hne]
    have hb : ∀ x ∈ rest.takeWhile isToolMsg, isToolMsg x = true :=
      fun x hx => List.mem_takeWhile_imp hx
    have hp : ∀ x ∈ ((expectedIds (tc0 :: tcs0)).filter
        (fun y => ¬ (seenIds (expectedIds (tc0 :: tcs0))
          (rest.takeWhile isToolMsg)).contains y)).map
        (fun tid => Msg.tool _TOOL_INTERRUPTED_PLACEHOLDER tid), isToolMsg x = true := by
      intro x hx
      rw [List.mem_map] at hx
      obtain ⟨tid, _, rfl⟩ := hx
      rfl
    have hh : ∀ (a : Msg) (t : List Msg), rest.dropWhile isToolMsg = a :: t →
        isToolMsg a = false :=
      fun a t ht => dropWhile_head_false _ _ a t ht
    have hsplit := takeWhile_over_sanitized (rest.takeWhile isToolMsg) _
      (rest.dropWhile isToolMsg) hb hp hh
    rw [← List.append_assoc] at hsplit
    rw [hsplit.1, hsplit.2]
    have hmiss : (expectedIds (tc0 :: tcs0)).filter
        (fun x => ¬ (seenIds (expectedIds (tc0 :: tcs0))
          (rest.takeWhile isToolMsg ++
            ((expectedIds (tc0 :: tcs0)).filter
              (fun y => ¬ (seenIds (expectedIds (tc0 :: tcs0))
                (rest.takeWhile isToolMsg)).contains y)).map
              (fun tid => Msg.tool _TOOL_INTERRUPTED_PLACEHOLDER tid))).contains x) = [] := by
      rw [List.filter_eq_nil_iff]
      intro x hx
      have hc := expected_covered (expectedIds (tc0 :: tcs0)) (rest.takeWhile isToolMsg) x hx
      simp only [hc]
      simp
    rw [hmiss, sanitize_idempotent (rest.dropWhile isToolMsg)]
    simp
termination_by h.length
decreasing_by
  · simp only [List.length_cons]
    omega
  · simp only [List.length_cons]
    omega
  · simp only [List.length_cons]
    omega
  · simp only [List.length_cons]
    omega
  · simp only [List.length_cons]
    exact Nat.lt_succ_of_le (List.dropWhile_sublist _).length_le

/- Small-step equations of the subgraph runner. -/

theorem subRun_step (env : SubEnv) (k : Nat) (node : SubNode) (st : SubState) (a t : Nat)
    (h : node ≠ SubNode.done) :
    subRun env (k + 1) (node, st, a, t) =
      subRun env k ((subStep env node st).1, (subStep env node st).2.1,
        a + (subStep env node st).2.2.1, t + (subStep env node st).2.2.2) := by
  cases node with
  | done => exact absurd rfl h
  | agent => rfl
  | tools => rfl

theorem subRun_done (env : SubEnv) (k : Nat) (st : SubState) (a t : Nat) :
    subRun env k (SubNode.done, st, a, t) = (SubNode.done, st, a, t) := by
  cases k <;> rfl

theorem after_tool_route_cases (st : SubState) :
    after_tool_route st = SubNode.agent ∨ after_tool_route st = SubNode.done := by
  unfold after_tool_route
  match st.messages.getLast? with
  | none => exact Or.inr rfl
  | some (.human c) => exact Or.inr rfl
  | some (.assistant c tcs) => exact Or.inr rfl
  | some (.system c) => exact Or.inr rfl
  | some (.tool c i) =>
    dsimp only
    split
    · exact Or.inl rfl
    · exact Or.inr rfl

theorem after_tool_route_agent (st : SubState) (h : after_tool_route st = SubNode.agent) :
    st.retries_used < AIRTABLE_MAX_RETRIES := by
  unfold after_tool_route at h
  match hm : st.messages.getLast? with
  | none => rw [hm] at h; exact absurd h (by simp)
  | some (.human c) => rw [hm] at h; exact absurd h (by simp)
  | some (.assistant c tcs) => rw [hm] at h; exact absurd h (by simp)
  | some (.system c) => rw [hm] at h; exact absurd h (by simp)
  | some (.tool c i) =>
    rw [hm] at h
    dsimp only at h
    by_cases hc : isErrorObservation c = true ∧ st.retries_used < AIRTABLE_MAX_RETRIES
    · exact hc.2
    · rw [if_neg hc] at h
      exact absurd h (by simp)

/- The retry counter never exceeds the ceiling along any run of the
   subgraph: invariant preservation for subRun. -/
theorem subRun_retries_le (env : SubEnv) (fuel : Nat) :
    ∀ (node : SubNode) (st : SubState) (a t : Nat),
      (node = SubNode.done → st.retries_used ≤ AIRTABLE_MAX_RETRIES) →
      (node ≠ SubNode.done → st.retries_used < AIRTABLE_MAX_RETRIES) →
      (subRun env fuel (node, st, a, t)).2.1.retries_used ≤ AIRTABLE_MAX_RETRIES := by
  induction fuel with
  | zero =>
    intro node st a t hdone hrun
    cases node with
    | done => exact hdone rfl
    | agent => exact le_of_lt (hrun (by simp))
    | tools => exact le_of_lt (hrun (by simp))
  | succ n ih =>
    intro node st a t hdone hrun
    cases node with
    | done =>
      rw [subRun_done]
      exact hdone rfl
    | agent =>
      have hlt := hrun (by simp)
      rw [subRun_step env n .agent st a t (by simp)]
      apply ih
      · intro _
        exact le_of_lt (by simpa [subStep, agent_node] using hlt)
      · intro _
        simpa [subStep, agent_node] using hlt
    | tools =>
      have hlt := hrun (by simp)
      rw [subRun_step env n .tools st a t (by simp)]
      apply ih
      · intro _
        have hval : (subStep env SubNode.tools st).2.1.retries_used =
            (if isErrorObservation (toolLastContent env st) then st.retries_used + 1
              else st.retries_used) := rfl
        rw [hval]
        split <;> omega
      · intro hne
        have hstep : (subStep env SubNode.tools st).1 =
            after_tool_route (tool_node_wrapper env st) := rfl
        have hst : (subStep env SubNode.tools st).2.1 = tool_node_wrapper env st := rfl
        rcases after_tool_route_cases (tool_node_wrapper env st) with hr | hr
        · rw [hst]
          exact after_tool_route_agent _ hr
        · rw [hstep, hr] at hne
          exact absurd rfl hne

/-- C9: retry-counter invariant of the sub-workflow. retries_used is 0 at
sub-workflow entry; every step leaves it unchanged or increments it by
exactly one, and the increment happens exactly when the step is the tool
step and its tool observation matches the error marker; consequently, along
any run from the entry state, it never decreases within a step and never
exceeds the ceiling AIRTABLE_MAX_RETRIES = 3. -/
theorem retries_invariant :
    (∀ q, (subEntry q).retries_used = 0) ∧
    (∀ (env : SubEnv) (node : SubNode) (st : SubState),
      (subStep env node st).2.1.retries_used = st.retries_used ∨
      (subStep env node st).2.1.retries_used = st.retries_used + 1) ∧
    (∀ (env : SubEnv) (node : SubNode) (st : SubState),
      ((subStep env node st).2.1.retries_used = st.retries_used + 1 ↔
        (node = SubNode.tools ∧ isErrorObservation (toolLastContent env st) = true))) ∧
    (∀ (env : SubEnv) (fuel : Nat) (q : String),
      (subRun env fuel (SubNode.agent, subEntry q, 0, 0)).2.1.retries_used ≤
        AIRTABLE_MAX_RETRIES) := by
  refine ⟨fun q => rfl, ?_, ?_, ?_⟩
  · intro env node st
    cases node with
    | agent => exact Or.inl rfl
    | done => exact Or.inl rfl
    | tools =>
      by_cases he : isErrorObservation (toolLastContent env st) = true
      · exact Or.inr (by simp [subStep, tool_node_wrapper, he])
      · exact Or.inl (by simp [subStep, tool_node_wrapper, he])
  · intro env node st
    cases node with
    | agent =>
      constructor
      · intro h
        simp only [subStep, agent_node] at h
        omega
      · rintro ⟨h, _⟩
        exact absurd h (by simp)
    | done =>
      constructor
      · intro h
        simp only [subStep] at h
        omega
      · rintro ⟨h, _⟩
        exact absurd h (by simp)
    | tools =>
      by_cases he : isErrorObservation (toolLastContent env st) = true
      · constructor
        · intro _
          exact ⟨rfl, he⟩
        · intro _
          simp [subStep, tool_node_wrapper, he]
      · constructor
        · intro h
          rw [show (subStep env SubNode.tools st).2.1.retries_used =
              (if isErrorObservation (toolLastContent env st) then st.retries_used + 1
                else st.retries_used) from rfl, if_neg he] at h
          omega
        · rintro ⟨_, h2⟩
          exact absurd h2 he
  · intro env fuel q
    apply subRun_retries_le
    · intro h
      exact absurd h (by simp)
    · intro _
      simp [subEntry, AIRTABLE_MAX_RETRIES]

/-- C2 counterexample: with a reasoning collaborator that always emits one
search call and a capability that always returns an error observation, the
sub-workflow terminates after exactly 3 reasoning invocations and 3 tool
invocations - not the 4 and 4 the claim states for ceiling 3. -/
theorem retry_ceiling_counterexample :
    subRun alwaysErrorEnv 10 (SubNode.agent, subEntry "liste", 0, 0) =
      (SubNode.done,
        ⟨[Msg.human "liste",
          Msg.assistant "" [⟨"1", "search_airtable", "q"⟩],
          Msg.tool "Error: field not found" "1",
          Msg.assistant "" [⟨"1", "search_airtable", "q"⟩],
          Msg.tool "Error: field not found" "1",
          Msg.assistant "" [⟨"1", "search_airtable", "q"⟩],
          Msg.tool "Error: field not found" "1"], 3⟩, 3, 3) ∧
    (3 : Nat) ≠ 4 := by
  exact ⟨by decide, by decide⟩

/-- C2 (amended): retry ceiling. For a capability whose every invocation
returns an error observation and a reasoning step that always emits exactly
one tool call, the sub-workflow performs exactly AIRTABLE_MAX_RETRIES = 3
reasoning invocations and 3 tool invocations and then terminates, for any
fuel of at least 6 steps. The counter is incremented on every failed
attempt, the first included, and the loop guard compares the incremented
counter with the ceiling, so the loop admits ceiling attempts in total, not
ceiling + 1 as claimed. -/
theorem subgraph_retry_ceiling_amended (env : SubEnv) (q : String) (fuel : Nat)
    (hfuel : 6 ≤ fuel)
    (hllm : ∀ msgs, ∃ c tc, env.llm msgs = Msg.assistant c [tc])
    (herr : ∀ tc, isErrorObservation (env.tool tc) = true) :
    (subRun env fuel (SubNode.agent, subEntry q, 0, 0)).1 = SubNode.done ∧
    (subRun env fuel (SubNode.agent, subEntry q, 0, 0)).2.2.1 = 3 ∧
    (subRun env fuel (SubNode.agent, subEntry q, 0, 0)).2.2.2 = 3 := by
  obtain ⟨k, rfl⟩ : ∃ k, fuel = k + 6 := ⟨fuel - 6, by omega⟩
  obtain ⟨c1, tc1, h1⟩ := hllm [Msg.human q]
  obtain ⟨c2, tc2, h2⟩ := hllm [Msg.human q, Msg.assistant c1 [tc1],
    Msg.tool (env.tool tc1) tc1.id]
  obtain ⟨c3, tc3, h3⟩ := hllm [Msg.human q, Msg.assistant c1 [tc1],
    Msg.tool (env.tool tc1) tc1.id, Msg.assistant c2 [tc2], Msg.tool (env.tool tc2) tc2.id]
  have e1 : subStep env .agent (subEntry q) =
      (.tools, ⟨[Msg.human q, Msg.assistant c1 [tc1]], 0⟩, 1, 0) := by
    simp [subStep, agent_node, subEntry, h1, _tools_condition]
  have e2 : subStep env .tools ⟨[Msg.human q, Msg.assistant c1 [tc1]], 0⟩ =
      (.agent, ⟨[Msg.human q, Msg.assistant c1 [tc1],
        Msg.tool (env.tool tc1) tc1.id], 1⟩, 0, 1) := by
    simp [subStep, tool_node_wrapper, toolResults, lastToolCalls, toolLastContent,
      after_tool_route, AIRTABLE_MAX_RETRIES, herr tc1]
  have e3 : subStep env .agent ⟨[Msg.human q, Msg.assistant c1 [tc1],
      Msg.tool (env.tool tc1) tc1.id], 1⟩ =
      (.tools, ⟨[Msg.human q, Msg.assistant c1 [tc1], Msg.tool (env.tool tc1) tc1.id,
        Msg.assistant c2 [tc2]], 1⟩, 1, 0) := by
    simp [subStep, agent_node, h2, _tools_condition]
  have e4 : subStep env .tools ⟨[Msg.human q, Msg.assistant c1 [tc1],
      Msg.tool (env.tool tc1) tc1.id, Msg.assistant c2 [tc2]], 1⟩ =
      (.agent, ⟨[Msg.human q, Msg.assistant c1 [tc1], Msg.tool (env.tool tc1) tc1.id,
        Msg.assistant c2 [tc2], Msg.tool (env.tool tc2) tc2.id], 2⟩, 0, 1) := by
    simp [subStep, tool_node_wrapper, toolResults, lastToolCalls, toolLastContent,
      after_tool_route, AIRTABLE_MAX_RETRIES, herr tc2]
  have e5 : subStep env .agent ⟨[Msg.human q, Msg.assistant c1 [tc1],
      Msg.tool (env.tool tc1) tc1.id, Msg.assistant c2 [tc2],
      Msg.tool (env.tool tc2) tc2.id], 2⟩ =
      (.tools, ⟨[Msg.human q, Msg.assistant c1 [tc1], Msg.tool (env.tool tc1) tc1.id,
        Msg.assistant c2 [tc2], Msg.tool (env.tool tc2) tc2.id,
        Msg.assistant c3 [tc3]], 2⟩, 1, 0) := by
    simp [subStep, agent_node, h3, _tools_condition]
  have e6 : subStep env .tools ⟨[Msg.human q, Msg.assistant c1 [tc1],
      Msg.tool (env.tool tc1) tc1.id, Msg.assistant c2 [tc2],
      Msg.tool (env.tool tc2) tc2.id, Msg.assistant c3 [tc3]], 2⟩ =
      (.done, ⟨[Msg.human q, Msg.assistant c1 [tc1], Msg.tool (env.tool tc1) tc1.id,
        Msg.assistant c2 [tc2], Msg.tool (env.tool tc2) tc2.id,
        Msg.assistant c3 [tc3], Msg.tool (env.tool tc3) tc3.id], 3⟩, 0, 1) := by
    simp [subStep, tool_node_wrapper, toolResults, lastToolCalls, toolLastContent,
      after_tool_route, AIRTABLE_MAX_RETRIES, herr tc3]
  have t1 : subRun env (k + 6) (SubNode.agent, subEntry q, 0, 0) =
      subRun env (k + 5) (.tools, ⟨[Msg.human q, Msg.assistant c1 [tc1]], 0⟩, 1, 0) := by
    rw [show k + 6 = (k + 5) + 1 from rfl, subRun_step env (k + 5) _ _ _ _ (by simp), e1]
    rfl
  have t2 : subRun env (k + 5) (SubNode.tools, ⟨[Msg.human q, Msg.assistant c1 [tc1]], 0⟩, 1, 0) =
      subRun env (k + 4) (.agent, ⟨[Msg.human q, Msg.assistant c1 [tc1],
        Msg.tool (env.tool tc1) tc1.id], 1⟩, 1, 1) := by
    rw [show k + 5 = (k + 4) + 1 from rfl, subRun_step env (k + 4) _ _ _ _ (by simp), e2]
    rfl
  have t3 : subRun env (k + 4) (SubNode.agent, ⟨[Msg.human q, Msg.assistant c1 [tc1],
        Msg.tool (env.tool tc1) tc1.id], 1⟩, 1, 1) =
      subRun env (k + 3) (.tools, ⟨[Msg.human q, Msg.assistant c1 [tc1],
        Msg.tool (env.tool tc1) tc1.id, Msg.assistant c2 [tc2]], 1⟩, 2, 1) := by
    rw [show k + 4 = (k + 3) + 1 from rfl, subRun_step env (k + 3) _ _ _ _ (by simp), e3]
    rfl
  have t4 : subRun env (k + 3) (SubNode.tools, ⟨[Msg.human q, Msg.assistant c1 [tc1],
        Msg.tool (env.tool tc1) tc1.id, Msg.assistant c2 [tc2]], 1⟩, 2, 1) =
      subRun env (k + 2) (.agent, ⟨[Msg.human q, Msg.assistant c1 [tc1],
        Msg.tool (env.tool tc1) tc1.id, Msg.assistant c2 [tc2],
        Msg.tool (env.tool tc2) tc2.id], 2⟩, 2, 2) := by
    rw [show k + 3 = (k + 2) + 1 from rfl, subRun_step env (k + 2) _ _ _ _ (by simp), e4]
    rfl
  have t5 : subRun env (k + 2) (SubNode.agent, ⟨[Msg.human q, Msg.assistant c1 [tc1],
        Msg.tool (env.tool tc1) tc1.id, Msg.assistant c2 [tc2],
        Msg.tool (env.tool tc2) tc2.id], 2⟩, 2, 2) =
      subRun env (k + 1) (.tools, ⟨[Msg.human q, Msg.assistant c1 [tc1],
        Msg.tool (env.tool tc1) tc1.id, Msg.assistant c2 [tc2],
        Msg.tool (env.tool tc2) tc2.id, Msg.assistant c3 [tc3]], 2⟩, 3, 2) := by
    rw [show k + 2 = (k + 1) + 1 from rfl, subRun_step env (k + 1) _ _ _ _ (by simp), e5]
    rfl
  have t6 : subRun env (k + 1) (SubNode.tools, ⟨[Msg.human q, Msg.assistant c1 [tc1],
        Msg.tool (env.tool tc1) tc1.id, Msg.assistant c2 [tc2],
        Msg.tool (env.tool tc2) tc2.id, Msg.assistant c3 [tc3]], 2⟩, 3, 2) =
      (SubNode.done, ⟨[Msg.human q, Msg.assistant c1 [tc1], Msg.tool (env.tool tc1) tc1.id,
        Msg.assistant c2 [tc2], Msg.tool (env.tool tc2) tc2.id,
        Msg.assistant c3 [tc3], Msg.tool (env.tool tc3) tc3.id], 3⟩, 3, 3) := by
    rw [show k + 1 = k + 1 from rfl, subRun_step env k _ _ _ _ (by simp), e6, subRun_done]
    rfl
  rw [t1, t2, t3, t4, t5, t6]
  exact ⟨rfl, rfl, rfl⟩

/-- Witness for the amended C2 theorem at a concrete always-erroring
environment: exactly 3 reasoning and 3 tool invocations, then done. -/
theorem subgraph_retry_ceiling_amended_witness :
    (subRun alwaysErrorEnv 10 (SubNode.agent, subEntry "liste", 0, 0)).1 = SubNode.done ∧
    (subRun alwaysErrorEnv 10 (SubNode.agent, subEntry "liste", 0, 0)).2.2.1 = 3 ∧
    (subRun alwaysErrorEnv 10 (SubNode.agent, subEntry "liste", 0, 0)).2.2.2 = 3 :=
  subgraph_retry_ceiling_amended alwaysErrorEnv "liste" 10 (by decide)
    (fun _ => ⟨"", ⟨"1", "search_airtable", "q"⟩, rfl⟩)
    (fun _ => show isErrorObservation "Error: field not found" = true by decide)

/-- C10 counterexample: with a non-empty configured table list but an empty
API key, an invocation with an invalid table_name is answered by the
configuration error message, not by a string beginning with the table_name
validation error, refuting the claim as stated. -/
theorem airtable_validation_counterexample :
    search_airtable noKeyConfig demoSvc "x" "NotATable" none none none =
      "Error: Airtable is not configured (missing AIRTABLE_API_KEY or AIRTABLE_BASE_ID)." ∧
    startsWithStr
      "Error: Airtable is not configured (missing AIRTABLE_API_KEY or AIRTABLE_BASE_ID)."
      "Error: table_name must be one of:" = false ∧
    noKeyConfig.tableNames ≠ [] := by
  refine ⟨rfl, by decide, by decide⟩

/-- C10 (amended): table-name validation of the search tool, provided the
Airtable credentials (API key and base id) are configured and the table list
is non-empty. A table_name matching a configured table exactly, or up to
ASCII case and surrounding whitespace, is normalized to a configured
spelling; when no configured table matches, the tool returns exactly the
string Error: table_name must be one of: followed by the configured names,
for every external service implementation - so the error is produced without
consulting the external Airtable service - and the embedding is a total
function, reflecting that the tool never raises. -/
theorem airtable_table_validation_amended (cfg : AirtableConfig)
    (hkey : cfg.apiKey ≠ "") (hbase : cfg.baseId ≠ "") (htables : cfg.tableNames ≠ [])
    (value : String) :
    ((value ∈ cfg.tableNames ∨ ∃ name ∈ cfg.tableNames, lowerStr name = lowerStr (trimStr value)) →
      ∃ n ∈ cfg.tableNames, _normalize_table_name cfg value = some n) ∧
    ((∀ name ∈ cfg.tableNames, value ≠ name ∧ lowerStr name ≠ lowerStr (trimStr value)) →
      ∀ (svc : AirtableService) (q : String) (sb sd : Option String) (mr : Option Int),
        search_airtable cfg svc q value sb sd mr =
          "Error: table_name must be one of: " ++
            String.intercalate ", " cfg.tableNames ++ ".") := by
  have hv : cfg.tableNames.isEmpty = false := by
    simp [List.isEmpty_iff, htables]
  constructor
  · intro hmatch
    unfold _normalize_table_name _get_valid_table_names
    rw [if_neg (by simp [hv])]
    by_cases hc : cfg.tableNames.contains value = true
    · rw [if_pos hc]
      exact ⟨value, List.elem_iff.mp hc, rfl⟩
    · rw [if_neg hc]
      rcases hmatch with hmem | ⟨name, hname, hlow⟩
      · exact absurd (List.elem_iff.mpr hmem) hc
      · have hex : ∃ n, cfg.tableNames.find?
            (fun n => lowerStr n == lowerStr (trimStr value)) = some n := by
          have hs : (cfg.tableNames.find?
              (fun n => lowerStr n == lowerStr (trimStr value))).isSome = true := by
            rw [List.find?_isSome]
            exact ⟨name, hname, by simp [hlow]⟩
          exact Option.isSome_iff_exists.mp hs
        obtain ⟨n, hn⟩ := hex
        exact ⟨n, List.mem_of_find?_eq_some hn, hn⟩
  · intro hnomatch svc q sb sd mr
    have hc : cfg.tableNames.contains value = false := by
      rcases hb : cfg.tableNames.contains value with _ | _
      · rfl
      · exact absurd rfl ((hnomatch value (List.elem_iff.mp hb)).1)
    have hnotmem : value ∉ cfg.tableNames := by
      intro hmem
      have hmm : cfg.tableNames.contains value = true := List.elem_iff.mpr hmem
      rw [hc] at hmm
      exact absurd hmm (by simp)
    have hnorm : _normalize_table_name cfg value = none := by
      unfold _normalize_table_name _get_valid_table_names
      rw [if_neg (by simp [hv]), if_neg (by simp [hnotmem])]
      rw [List.find?_eq_none]
      intro x hx
      simp only [beq_iff_eq]
      exact fun hxx => (hnomatch x hx).2 hxx
    have hcfg : (cfg.apiKey == "" || cfg.baseId == "") = false := by
      simp [hkey, hbase]
    unfold search_airtable _search_airtable_impl _get_valid_table_names
    rw [if_neg (by simp [hcfg, hkey, hbase]), hnorm]
    rw [if_pos (by simp [hv])]

/-- Witness for the amended C10 theorem: the table name with surrounding
whitespace and different case is normalized to a configured spelling, and an
unknown table name is answered with the enumerating validation error. -/
theorem airtable_table_validation_amended_witness :
    (∃ n ∈ demoConfig.tableNames, _normalize_table_name demoConfig " client " = some n) ∧
    search_airtable demoConfig demoSvc "x" "NotATable" none none none =
      "Error: table_name must be one of: " ++
        String.intercalate ", " demoConfig.tableNames ++ "." :=
  ⟨(airtable_table_validation_amended demoConfig (by decide) (by decide) (by decide)
      " client ").1 (Or.inr ⟨"Client", by decide, by decide⟩),
   (airtable_table_validation_amended demoConfig (by decide) (by decide) (by decide)
      "NotATable").2 (by decide) demoSvc "x" none none none⟩

end VolteyrBot
